import Mathlib

/-!
Shallow embedding of `src/main.rs` of the koradi_svc repository: a service
that periodically downloads a fixed set of images, stores a SHA-256 hex
digest per image key, and serves each digest over a GET endpoint.

Machine integers are modelled as `Nat` with explicit reduction modulo `2^32`
(the `sha2` crate's SHA-256 works on 32-bit words); response bodies are
`List Nat` (bytes); fallible operations return `Option` / `Except`.
-/

namespace KoradiSvc

/-! ## 32-bit word arithmetic (SHA-256 primitives, FIPS 180-4 as implemented
by the `sha2` crate used at line 73 of main.rs) -/

def add32 (x y : Nat) : Nat := (x + y) % 2 ^ 32

/-- Right rotation of a 32-bit word. -/
def rotr (n x : Nat) : Nat :=
  (x % 2 ^ 32) / 2 ^ n + (x % 2 ^ 32) % 2 ^ n * 2 ^ (32 - n)

/-- Logical right shift of a 32-bit word. -/
def shr32 (n x : Nat) : Nat := (x % 2 ^ 32) / 2 ^ n

def not32 (x : Nat) : Nat := (x % 2 ^ 32) ^^^ (2 ^ 32 - 1)

def ch (x y z : Nat) : Nat := (x &&& y) ^^^ (not32 x &&& z)

def maj (x y z : Nat) : Nat := (x &&& y) ^^^ (x &&& z) ^^^ (y &&& z)

def bigSigma0 (x : Nat) : Nat := rotr 2 x ^^^ rotr 13 x ^^^ rotr 22 x

def bigSigma1 (x : Nat) : Nat := rotr 6 x ^^^ rotr 11 x ^^^ rotr 25 x

def smallSigma0 (x : Nat) : Nat := rotr 7 x ^^^ rotr 18 x ^^^ shr32 3 x

def smallSigma1 (x : Nat) : Nat := rotr 17 x ^^^ rotr 19 x ^^^ shr32 10 x

/-- The eight 32-bit working variables of SHA-256 (named a..h as in FIPS 180-4). -/
structure Hash8 where
  a : Nat
  b : Nat
  c : Nat
  d : Nat
  e : Nat
  f : Nat
  g : Nat
  h : Nat

/-- SHA-256 initial hash value H(0), in decimal. -/
def initHash : Hash8 :=
  ⟨1779033703, 3144134277, 1013904242, 2773480762,
   1359893119, 2600822924, 528734635, 1541459225⟩

/-- SHA-256 round constants K, in decimal. -/
def roundK : List Nat :=
  [1116352408, 1899447441, 3049323471, 3921009573, 961987163, 1508970993,
   2453635748, 2870763221, 3624381080, 310598401, 607225278, 1426881987,
   1925078388, 2162078206, 2614888103, 3248222580, 3835390401, 4022224774,
   264347078, 604807628, 770255983, 1249150122, 1555081692, 1996064986,
   2554220882, 2821834349, 2952996808, 3210313671, 3336571891, 3584528711,
   113926993, 338241895, 666307205, 773529912, 1294757372, 1396182291,
   1695183700, 1986661051, 2177026350, 2456956037, 2730485921, 2820302411,
   3259730800, 3345764771, 3516065817, 3600352804, 4094571909, 275423344,
   430227734, 506948616, 659060556, 883997877, 958139571, 1322822218,
   1537002063, 1747873779, 1955562222, 2024104815, 2227730452, 2361852424,
   2428436474, 2756734187, 3204031479, 3329325298]

/-- One step of the message-schedule extension: append
W(t) = sigma1 W(t-2) + W(t-7) + sigma0 W(t-15) + W(t-16) mod 2^32. -/
def stepW (acc : List Nat) : List Nat :=
  let n := acc.length
  acc ++ [add32 (add32 (smallSigma1 (acc.getD (n - 2) 0)) (acc.getD (n - 7) 0))
               (add32 (smallSigma0 (acc.getD (n - 15) 0)) (acc.getD (n - 16) 0))]

/-- Extend a 16-word block to the 64-word message schedule. -/
def schedule (ws : List Nat) : List Nat :=
  (List.range 48).foldl (fun acc _ => stepW acc) ws

/-- One SHA-256 round, consuming one (K, W) pair. -/
def roundStep (st : Hash8) (kw : Nat × Nat) : Hash8 :=
  let t1 := add32 st.h (add32 (bigSigma1 st.e)
              (add32 (ch st.e st.f st.g) (add32 kw.1 kw.2)))
  let t2 := add32 (bigSigma0 st.a) (maj st.a st.b st.c)
  ⟨add32 t1 t2, st.a, st.b, st.c, add32 st.d t1, st.e, st.f, st.g⟩

/-- Compress one 16-word block into the hash state. -/
def compress (hv : Hash8) (ws : List Nat) : Hash8 :=
  let st := ((roundK.zip (schedule ws)).foldl roundStep hv)
  ⟨add32 hv.a st.a, add32 hv.b st.b, add32 hv.c st.c, add32 hv.d st.d,
   add32 hv.e st.e, add32 hv.f st.f, add32 hv.g st.g, add32 hv.h st.h⟩

/-- Big-endian 8-byte rendering of the message bit length. -/
def beBytes8 (n : Nat) : List Nat :=
  [n / 2 ^ 56 % 256, n / 2 ^ 48 % 256, n / 2 ^ 40 % 256, n / 2 ^ 32 % 256,
   n / 2 ^ 24 % 256, n / 2 ^ 16 % 256, n / 2 ^ 8 % 256, n % 256]

/-- SHA-256 padding: append 0x80, zeros to 56 mod 64, then the bit length. -/
def pad (msg : List Nat) : List Nat :=
  msg ++ 0x80 :: (List.replicate ((119 - msg.length % 64) % 64) 0 ++ beBytes8 (8 * msg.length))

/-- Group bytes into big-endian 32-bit words. -/
def bytesToWords : List Nat → List Nat
  | b0 :: b1 :: b2 :: b3 :: rest =>
      (b0 % 256 * 2 ^ 24 + b1 % 256 * 2 ^ 16 + b2 % 256 * 2 ^ 8 + b3 % 256) :: bytesToWords rest
  | _ => []

/-- Fold the compression function over successive 16-word blocks. -/
def processBlocks (hv : Hash8) : List Nat → Hash8
  | w0 :: w1 :: w2 :: w3 :: w4 :: w5 :: w6 :: w7 ::
    w8 :: w9 :: w10 :: w11 :: w12 :: w13 :: w14 :: w15 :: rest =>
      processBlocks (compress hv [w0, w1, w2, w3, w4, w5, w6, w7,
                                  w8, w9, w10, w11, w12, w13, w14, w15]) rest
  | _ => hv

/-- Big-endian bytes of one 32-bit word. -/
def wordBytes (w : Nat) : List Nat :=
  [w / 2 ^ 24 % 256, w / 2 ^ 16 % 256, w / 2 ^ 8 % 256, w % 256]

/-- `Sha256::digest`: the 32-byte SHA-256 digest of a byte string. -/
def Sha256.digest (msg : List Nat) : List Nat :=
  let hv := processBlocks initHash (bytesToWords (pad msg))
  wordBytes hv.a ++ wordBytes hv.b ++ wordBytes hv.c ++ wordBytes hv.d ++
  wordBytes hv.e ++ wordBytes hv.f ++ wordBytes hv.g ++ wordBytes hv.h

/-- The lowercase hex digit for a value below 16: `0`-`9` are code points
48-57 and `a`-`f` are code points 97-102. -/
def hexChar (n : Nat) : Char :=
  if n < 10 then Char.ofNat (48 + n) else Char.ofNat (87 + n)

/-- Two lowercase hex digits of one byte. -/
def byteHex (b : Nat) : List Char := [hexChar (b / 16 % 16), hexChar (b % 16)]

/-- Lowercase-hex rendering of a byte string, as Rust formats a digest. -/
def formatLowerHex (bytes : List Nat) : String := String.mk (bytes.flatMap byteHex)

/-- Line 73 of main.rs: the hex digest stored into the Hash Store. -/
def sha256hex (msg : List Nat) : String := formatLowerHex (Sha256.digest msg)

/-- The bytes of the body fetched in the end-to-end scenario. -/
def helloBytes : List Nat := [104, 101, 108, 108, 111]

/-! ## Data model

The eight image keys. `AppState` models the eight `Mutex<String>` fields of
the Rust `AppState` struct as one map from key to stored hash; `main`
initializes every field to the empty string. -/

inductive Key
  | en | en_p | es | es_p | fr | po | it | de
deriving DecidableEq, Repr

/-- The fixed order in which the loop body of `download_and_hash_images`
issues the eight fetches (lines 92-99 of main.rs). -/
def keyOrder : List Key := [.en, .en_p, .es, .es_p, .fr, .po, .it, .de]

def AppState : Type := Key → String

/-- `main` lines 127-137: every hash field starts as `String::new()`. -/
def initialState : AppState := fun _ => ""

/-- Writing one key's hash field (the assignment under the mutex at line 76). -/
def setHash (s : AppState) (k : Key) (v : String) : AppState :=
  fun k2 => if k2 = k then v else s k2

/-- `download_and_hash_image!` for one key: `none` models the error paths
(fetch failure or body-read failure), which execute `continue`; `some`
models success, which stores the lowercase hex SHA-256 digest of the body. -/
def download_and_hash_image (s : AppState) (k : Key) (fetched : Option (List Nat)) :
    Option AppState :=
  match fetched with
  | none => none
  | some data => some (setHash s k (sha256hex data))

/-- Outcome of one execution of the body of the `loop` in
`download_and_hash_images`: the state after the body, whether control
reached the `tokio::time::sleep` at line 101 (a `continue` in the macro
jumps back to the top of the `loop`, skipping both the remaining keys and
the sleep), and which keys had a fetch issued during this execution. -/
structure PassResult where
  state : AppState
  slept : Bool
  attempted : List Key

/-- One execution of the `loop` body over the (remaining) keys in order.
On a fetch failure the macro's `continue` restarts the enclosing `loop`,
so the body ends at once: no further key is attempted and the sleep does
not run. -/
def runPass (fetch : Key → Option (List Nat)) : List Key → AppState → PassResult
  | [], s => ⟨s, true, []⟩
  | k :: ks, s =>
    match download_and_hash_image s k (fetch k) with
    | none => ⟨s, false, [k]⟩
    | some s2 =>
      let r := runPass fetch ks s2
      ⟨r.state, r.slept, k :: r.attempted⟩

def REFRESH_HASH_IN_SECONDS : Nat := 60

/-- `download_and_hash_images`, unrolled over a finite trace: one fetch
behavior (key to optional body) per execution of the `loop` body. -/
def download_and_hash_images (passes : List (Key → Option (List Nat))) (s : AppState) :
    AppState :=
  match passes with
  | [] => s
  | f :: fs => download_and_hash_images fs (runPass f keyOrder s).state

/-- `create_hash_endpoint!`: the generated handler locks the key's field,
clones it, and answers `HttpResponse::Ok` (status 200) with the clone as
body; the state is returned unchanged. -/
def create_hash_endpoint (s : AppState) (k : Key) : (Nat × String) × AppState :=
  ((200, s k), s)

/-! ## Configuration loading (`Config::load_from_file`, lines 46-54)

The TOML source is modelled as either an unreadable file, a file that is
not well-formed TOML, or a parsed document: a list of named sections, each
a list of named values. `toml::from_str::<Config>` succeeds exactly when a
`secrets` section exists and every field of the Rust `Secrets` struct is
present in it with a string value. -/

inductive TomlValue
  | str (s : String)
  | int (n : Int)
  | boolean (b : Bool)
deriving DecidableEq, Repr

def TomlTable : Type := List (String × TomlValue)

def TomlDoc : Type := List (String × TomlTable)

inductive ConfigSource
  | unreadable
  | unparsable
  | parsed (doc : TomlDoc)

/-- The `Secrets` struct (lines 22-32): note the field names `en_image_p`
and `es_image_p`. -/
structure Secrets where
  en_image : String
  en_image_p : String
  es_image : String
  es_image_p : String
  fr_image : String
  po_image : String
  it_image : String
  de_image : String
deriving Repr

structure Config where
  secrets : Secrets
deriving Repr

/-- Deserialization of one string field: present and of string type. -/
def getStr (t : TomlTable) (name : String) : Option String :=
  match t.lookup name with
  | some (TomlValue.str s) => some s
  | _ => none

/-- serde deserialization of the `Secrets` struct from the `secrets` table. -/
def deserializeSecrets (t : TomlTable) : Option Secrets := do
  let a ← getStr t "en_image"
  let b ← getStr t "en_image_p"
  let c ← getStr t "es_image"
  let d ← getStr t "es_image_p"
  let e ← getStr t "fr_image"
  let f ← getStr t "po_image"
  let g ← getStr t "it_image"
  let h ← getStr t "de_image"
  pure ⟨a, b, c, d, e, f, g, h⟩

/-- `Config::load_from_file`: read the file (error if unreadable), parse
the TOML into `Config` (error if malformed, missing section or fields, or
wrong field types). -/
def Config.load_from_file (src : ConfigSource) : Except String Config :=
  match src with
  | .unreadable => .error "Unable to read config file"
  | .unparsable => .error "Unable to parse config file"
  | .parsed doc =>
    match doc.lookup "secrets" with
    | none => .error "Unable to parse config file"
    | some t =>
      match deserializeSecrets t with
      | none => .error "Unable to parse config file"
      | some s => .ok ⟨s⟩

/-! ## Helper lemmas -/

theorem setHash_same (s : AppState) (k : Key) (v : String) : setHash s k v k = v := by
  simp [setHash]

theorem setHash_other (s : AppState) {k k2 : Key} (v : String) (h : k2 ≠ k) :
    setHash s k v k2 = s k2 := by
  simp [setHash, h]

/-- A key whose fetch fails is never written during the loop body: either it
is reached and the macro takes the error path, or an earlier failure ended
the body before reaching it. -/
theorem runPass_state_of_none (fetch : Key → Option (List Nat)) (k : Key)
    (hk : fetch k = none) :
    ∀ (ks : List Key) (s : AppState), (runPass fetch ks s).state k = s k := by
  intro ks
  induction ks with
  | nil => intro s; rfl
  | cons k2 ks ih =>
    intro s
    by_cases hkk : k2 = k
    · subst hkk
      simp [runPass, download_and_hash_image, hk]
    · cases hf : fetch k2 with
      | none => simp [runPass, download_and_hash_image, hf]
      | some data =>
        simp [runPass, download_and_hash_image, hf]
        rw [ih]
        exact setHash_other s _ (fun h => hkk h.symm)

/-- The loop body never writes a key that does not occur in the remaining
key list. -/
theorem runPass_state_of_not_mem (fetch : Key → Option (List Nat)) (k : Key) :
    ∀ (ks : List Key), k ∉ ks → ∀ s : AppState, (runPass fetch ks s).state k = s k := by
  intro ks
  induction ks with
  | nil => intro _ s; rfl
  | cons k2 ks ih =>
    intro hmem s
    have hk2 : k ≠ k2 := fun h => hmem (h ▸ List.mem_cons_self k2 ks)
    have hks : k ∉ ks := fun h => hmem (List.mem_cons_of_mem k2 h)
    cases hf : fetch k2 with
    | none => simp [runPass, download_and_hash_image, hf]
    | some data =>
      simp [runPass, download_and_hash_image, hf]
      rw [ih hks]
      exact setHash_other s _ hk2

/-- The digest is always exactly 32 bytes. -/
theorem digest_length (msg : List Nat) : (Sha256.digest msg).length = 32 := by
  simp [Sha256.digest, wordBytes]

theorem flatMap_byteHex_length :
    ∀ l : List Nat, (l.flatMap byteHex).length = 2 * l.length := by
  intro l
  induction l with
  | nil => rfl
  | cons b l ih =>
    simp [byteHex, ih]
    omega

/-- The stored hex digest is always exactly 64 characters. -/
theorem sha256hex_length (msg : List Nat) : (sha256hex msg).length = 64 := by
  show ((Sha256.digest msg).flatMap byteHex).length = 64
  rw [flatMap_byteHex_length, digest_length]

def hexAlphabet : List Char := "0123456789abcdef".data

theorem hexChar_mem : ∀ n < 16, hexChar n ∈ hexAlphabet := by decide

theorem byteHex_mem (b : Nat) (c : Char) (hc : c ∈ byteHex b) : c ∈ hexAlphabet := by
  simp [byteHex] at hc
  rcases hc with h | h <;> subst h <;>
    exact hexChar_mem _ (Nat.mod_lt _ (by norm_num))

/-- Every character of the stored hex digest is a lowercase hex digit. -/
theorem sha256hex_data_mem (msg : List Nat) :
    ∀ c ∈ (sha256hex msg).data, c ∈ hexAlphabet := by
  intro c hc
  have h2 : c ∈ (Sha256.digest msg).flatMap byteHex := hc
  rcases List.mem_flatMap.mp h2 with ⟨b, _, hb⟩
  exact byteHex_mem b c hb

/-- The stored hex digest is never the empty string. -/
theorem sha256hex_ne_empty (msg : List Nat) : sha256hex msg ≠ "" := by
  intro h
  have h2 := sha256hex_length msg
  rw [h] at h2
  exact absurd h2 (by decide)

/-- Shape invariant on one stored value: the empty-string sentinel or a
64-character lowercase hex digest. -/
def goodHash (v : String) : Prop :=
  v = "" ∨ (v.length = 64 ∧ ∀ c ∈ v.data, c ∈ hexAlphabet)

theorem goodHash_sha256hex (msg : List Nat) : goodHash (sha256hex msg) :=
  Or.inr ⟨sha256hex_length msg, sha256hex_data_mem msg⟩

/-- Shape invariant on the whole Hash Store. -/
def storeOk (s : AppState) : Prop := ∀ k, goodHash (s k)

theorem storeOk_setHash {s : AppState} (hs : storeOk s) (k : Key) (msg : List Nat) :
    storeOk (setHash s k (sha256hex msg)) := by
  intro k2
  by_cases h : k2 = k
  · subst h
    rw [setHash_same]
    exact goodHash_sha256hex msg
  · rw [setHash_other s _ h]
    exact hs k2

theorem runPass_storeOk (fetch : Key → Option (List Nat)) :
    ∀ (ks : List Key) (s : AppState), storeOk s → storeOk (runPass fetch ks s).state := by
  intro ks
  induction ks with
  | nil => intro s hs; exact hs
  | cons k ks ih =>
    intro s hs
    cases hf : fetch k with
    | none => simpa [runPass, download_and_hash_image, hf] using hs
    | some data =>
      simp [runPass, download_and_hash_image, hf]
      exact ih _ (storeOk_setHash hs k data)

theorem images_storeOk :
    ∀ (passes : List (Key → Option (List Nat))) (s : AppState), storeOk s →
      storeOk (download_and_hash_images passes s) := by
  intro passes
  induction passes with
  | nil => intro s hs; exact hs
  | cons f fs ih =>
    intro s hs
    exact ih _ (runPass_storeOk f keyOrder s hs)

/-- A non-empty stored value stays non-empty through one loop body. -/
theorem runPass_ne_empty (fetch : Key → Option (List Nat)) (k : Key) :
    ∀ (ks : List Key) (s : AppState), s k ≠ "" → (runPass fetch ks s).state k ≠ "" := by
  intro ks
  induction ks with
  | nil => intro s hs; exact hs
  | cons k2 ks ih =>
    intro s hs
    cases hf : fetch k2 with
    | none => simpa [runPass, download_and_hash_image, hf] using hs
    | some data =>
      simp [runPass, download_and_hash_image, hf]
      refine ih _ ?_
      by_cases h : k = k2
      · subst h
        rw [setHash_same]
        exact sha256hex_ne_empty data
      · rw [setHash_other s _ h]
        exact hs

theorem images_ne_empty (k : Key) :
    ∀ (passes : List (Key → Option (List Nat))) (s : AppState), s k ≠ "" →
      download_and_hash_images passes s k ≠ "" := by
  intro passes
  induction passes with
  | nil => intro s hs; exact hs
  | cons f fs ih =>
    intro s hs
    exact ih _ (runPass_ne_empty f k keyOrder s hs)

/-! ## Configuration lemmas -/

/-- The field names of the Rust `Secrets` struct, which serde requires in
the `secrets` table. -/
def codeFields : List String :=
  ["en_image", "en_image_p", "es_image", "es_image_p",
   "fr_image", "po_image", "it_image", "de_image"]

def hasStringField (t : TomlTable) (name : String) : Prop :=
  ∃ v, t.lookup name = some (TomlValue.str v)

/-- Success condition for config loading, stated in the spec's words (with
the field names the code actually requires): the source is readable,
well-formed TOML, with a top-level `secrets` section holding a string
value for every required field. -/
def specLoadOk (src : ConfigSource) : Prop :=
  ∃ doc t, src = ConfigSource.parsed doc ∧ doc.lookup "secrets" = some t ∧
    ∀ name ∈ codeFields, hasStringField t name

theorem getStr_isSome (t : TomlTable) (name : String) :
    (getStr t name).isSome = true ↔ hasStringField t name := by
  unfold getStr hasStringField
  cases h : t.lookup name with
  | none => simp
  | some v => cases v <;> simp

theorem deserializeSecrets_isSome (t : TomlTable) :
    (deserializeSecrets t).isSome = true ↔ ∀ name ∈ codeFields, hasStringField t name := by
  have hfields : (∀ name ∈ codeFields, hasStringField t name) ↔
      ((getStr t "en_image").isSome = true ∧ (getStr t "en_image_p").isSome = true ∧
       (getStr t "es_image").isSome = true ∧ (getStr t "es_image_p").isSome = true ∧
       (getStr t "fr_image").isSome = true ∧ (getStr t "po_image").isSome = true ∧
       (getStr t "it_image").isSome = true ∧ (getStr t "de_image").isSome = true) := by
    simp [codeFields, getStr_isSome]
  rw [hfields]
  unfold deserializeSecrets
  cases getStr t "en_image" with
  | none => simp
  | some a =>
  cases getStr t "en_image_p" with
  | none => simp
  | some b =>
  cases getStr t "es_image" with
  | none => simp
  | some c =>
  cases getStr t "es_image_p" with
  | none => simp
  | some d =>
  cases getStr t "fr_image" with
  | none => simp
  | some e =>
  cases getStr t "po_image" with
  | none => simp
  | some f =>
  cases getStr t "it_image" with
  | none => simp
  | some g =>
  cases getStr t "de_image" with
  | none => simp
  | some h => simp

/-- Stepping the loop body over a key whose fetch succeeds. -/
theorem runPass_cons_some (fetch : Key → Option (List Nat)) (k : Key) (ks : List Key)
    (s : AppState) (data : List Nat) (h : fetch k = some data) :
    (runPass fetch (k :: ks) s).state
      = (runPass fetch ks (setHash s k (sha256hex data))).state := by
  simp [runPass, download_and_hash_image, h]

/-- Over any number of loop-body executions, a key whose fetch always fails
is never written. -/
theorem images_state_of_none (k : Key) :
    ∀ (passes : List (Key → Option (List Nat))) (s : AppState),
      (∀ f ∈ passes, f k = none) → download_and_hash_images passes s k = s k := by
  intro passes
  induction passes with
  | nil => intro s _; rfl
  | cons f fs ih =>
    intro s hf
    show download_and_hash_images fs (runPass f keyOrder s).state k = s k
    rw [ih _ fun g hg => hf g (List.mem_cons_of_mem f hg)]
    exact runPass_state_of_none f k (hf f (List.mem_cons_self f fs)) keyOrder s

/-- Every key occurs in the loop body's key order. -/
theorem keyOrder_complete : ∀ k : Key, k ∈ keyOrder := by
  intro k
  cases k <;> decide

/-- In a pass whose every fetch succeeds, each key in the (duplicate-free)
key list ends up holding the digest of its own body. -/
theorem runPass_all_success (fetch : Key → Option (List Nat)) (bodies : Key → List Nat)
    (hall : ∀ k2, fetch k2 = some (bodies k2)) (k : Key) :
    ∀ ks : List Key, k ∈ ks → ks.Nodup →
      ∀ s : AppState, (runPass fetch ks s).state k = sha256hex (bodies k) := by
  intro ks
  induction ks with
  | nil => intro h; exact absurd h (List.not_mem_nil k)
  | cons k2 ks ih =>
    intro hmem hnd s
    rw [runPass_cons_some fetch k2 ks s (bodies k2) (hall k2)]
    by_cases hk : k = k2
    · subst hk
      rw [runPass_state_of_not_mem fetch k ks (List.nodup_cons.mp hnd).1, setHash_same]
    · have hks : k ∈ ks := by
        rcases List.mem_cons.mp hmem with h | h
        · exact absurd h hk
        · exact h
      exact ih hks (List.nodup_cons.mp hnd).2 _

/-! ## The claims -/

/-- Claim C1: for every key, the success path of `download_and_hash_image!`
stores exactly the lowercase-hex SHA-256 digest of the full fetched body
under that key; in a cycle where every fetch succeeds, each key's stored
value ends as the digest of that key's own body; and for the body bytes
b"hello" the digest is exactly
2cf24dba5fb0a30e26e83b2ac5b9e29e1b161e5c1fa7425e73043362938b9824. -/
theorem fetched_body_stored_as_lowercase_sha256_hex
    (s : AppState) (k : Key) (data : List Nat)
    (fetch : Key → Option (List Nat)) (bodies : Key → List Nat)
    (hall : ∀ k2, fetch k2 = some (bodies k2)) :
    download_and_hash_image s k (some data) = some (setHash s k (sha256hex data)) ∧
    setHash s k (sha256hex data) k = sha256hex data ∧
    (runPass fetch keyOrder s).state k = sha256hex (bodies k) ∧
    sha256hex helloBytes
      = "2cf24dba5fb0a30e26e83b2ac5b9e29e1b161e5c1fa7425e73043362938b9824" :=
  ⟨rfl, setHash_same s k _,
   runPass_all_success fetch bodies hall k keyOrder (keyOrder_complete k) (by decide) s,
   by decide⟩

theorem fetched_body_stored_as_lowercase_sha256_hex_witness :
    download_and_hash_image initialState Key.fr (some helloBytes)
      = some (setHash initialState Key.fr (sha256hex helloBytes)) ∧
    setHash initialState Key.fr (sha256hex helloBytes) Key.fr = sha256hex helloBytes ∧
    (runPass (fun _ => some helloBytes) keyOrder initialState).state Key.fr
      = sha256hex helloBytes ∧
    sha256hex helloBytes
      = "2cf24dba5fb0a30e26e83b2ac5b9e29e1b161e5c1fa7425e73043362938b9824" :=
  fetched_body_stored_as_lowercase_sha256_hex initialState Key.fr helloBytes
    (fun _ => some helloBytes) (fun _ => helloBytes) (fun _ => rfl)

/-- Claim C2 is refuted by the code: the `continue` in the error arms of
`download_and_hash_image!` binds to the enclosing `loop` of
`download_and_hash_images`, so a failed fetch restarts the whole loop at the
first key instead of skipping to the next key. Evaluating the loop body at a
cycle in which only the fetch for es fails: only en, en_p and es are
attempted, and fr (whose fetch would succeed) is never written. -/
theorem failure_restarts_loop_skipping_remaining_keys :
    (runPass (fun k => if k = Key.es then none else some helloBytes) keyOrder
        initialState).attempted = [Key.en, Key.en_p, Key.es] ∧
    (runPass (fun k => if k = Key.es then none else some helloBytes) keyOrder
        initialState).state Key.fr = "" := by decide

/-- Claim C3 is refuted by the code: the sleep at the bottom of the loop is
reached only when all eight fetches of the pass succeed; any failure executes
`continue`, restarting the loop immediately with no sleep. -/
theorem sleep_skipped_when_any_fetch_fails :
    REFRESH_HASH_IN_SECONDS = 60 ∧
    (runPass (fun _ => some helloBytes) keyOrder initialState).slept = true ∧
    (runPass (fun k => if k = Key.en_p then none else some helloBytes) keyOrder
        initialState).slept = false := by decide

/-- Claim C4: a failed fetch for key k leaves the Hash Store's value for k
exactly as it was before the loop body ran; nothing is written for k on the
error path. -/
theorem failed_fetch_leaves_hash_unchanged
    (fetch : Key → Option (List Nat)) (k : Key) (s : AppState)
    (hk : fetch k = none) :
    (runPass fetch keyOrder s).state k = s k :=
  runPass_state_of_none fetch k hk keyOrder s

theorem failed_fetch_leaves_hash_unchanged_witness :
    (runPass (fun _ => none) keyOrder initialState).state Key.en
      = initialState Key.en :=
  failed_fetch_leaves_hash_unchanged (fun _ => none) Key.en initialState rfl

/-- Claim C5: for every key, the generated GET handler answers status 200
with body equal to the value currently stored for that key, and returns the
Hash Store unchanged (pure read, cannot fail). -/
theorem endpoint_returns_200_current_hash_pure (s : AppState) (k : Key) :
    (create_hash_endpoint s k).1.1 = 200 ∧
    (create_hash_endpoint s k).1.2 = s k ∧
    (create_hash_endpoint s k).2 = s :=
  ⟨rfl, rfl, rfl⟩

/-- Claim C6: every entry starts as the empty string, and a key whose fetch
never succeeds still holds the empty string after any number of loop-body
executions. -/
theorem never_fetched_key_stays_empty
    (passes : List (Key → Option (List Nat))) (k : Key)
    (hfail : ∀ f ∈ passes, f k = none) :
    initialState k = "" ∧ download_and_hash_images passes initialState k = "" :=
  ⟨rfl, by rw [images_state_of_none k passes initialState hfail]; rfl⟩

theorem never_fetched_key_stays_empty_witness :
    initialState Key.en = "" ∧
    download_and_hash_images [fun _ => none] initialState Key.en = "" :=
  never_fetched_key_stays_empty [fun _ => none] Key.en (by simp)

/-- Claim C7, counterexample: a parsed TOML document whose `secrets` section
holds string values under exactly the names the claim requires (the
`key + _image` convention, so `en_p_image` and `es_p_image`) is rejected by
`Config::load_from_file`, because the Rust `Secrets` struct names these two
fields `en_image_p` and `es_image_p`. -/
def specNamedSecrets : TomlTable :=
  [("en_image", .str "u1"), ("en_p_image", .str "u2"), ("es_image", .str "u3"),
   ("es_p_image", .str "u4"), ("fr_image", .str "u5"), ("po_image", .str "u6"),
   ("it_image", .str "u7"), ("de_image", .str "u8")]

def specNamedDoc : TomlDoc := [("secrets", specNamedSecrets)]

theorem claimed_field_names_rejected :
    Config.load_from_file (ConfigSource.parsed specNamedDoc)
      = Except.error "Unable to parse config file" ∧
    specNamedSecrets.lookup "en_p_image" = some (TomlValue.str "u2") ∧
    specNamedSecrets.lookup "es_p_image" = some (TomlValue.str "u4") :=
  ⟨rfl, rfl, rfl⟩

/-- Claim C7 as amended: config loading succeeds exactly when the source is
readable, well-formed TOML with a top-level `secrets` section holding one
string field per key named en_image, en_image_p, es_image, es_image_p,
fr_image, po_image, it_image, de_image; an unreadable or malformed source,
a missing field, or a wrong field type makes it fail. -/
theorem config_load_ok_iff (src : ConfigSource) :
    (∃ c, Config.load_from_file src = Except.ok c) ↔ specLoadOk src := by
  cases src with
  | unreadable => simp [Config.load_from_file, specLoadOk]
  | unparsable => simp [Config.load_from_file, specLoadOk]
  | parsed doc =>
    cases hsec : doc.lookup "secrets" with
    | none => simp [Config.load_from_file, specLoadOk, hsec]
    | some t =>
      cases hdes : deserializeSecrets t with
      | none =>
        have h2 := deserializeSecrets_isSome t
        rw [hdes] at h2
        simp at h2
        simp [Config.load_from_file, specLoadOk, hsec, hdes, h2]
      | some c =>
        have h2 := deserializeSecrets_isSome t
        rw [hdes] at h2
        simp at h2
        simp [Config.load_from_file, specLoadOk, hsec, hdes]
        exact h2

/-- Claim C9: initialization, every write of the refresher loop, and the GET
handlers keep every stored value either the empty string or a 64-character
lowercase hex digest. -/
theorem every_stored_value_empty_or_64_hex
    (fetch : Key → Option (List Nat)) (passes : List (Key → Option (List Nat)))
    (s : AppState) (k : Key) (hs : storeOk s) :
    storeOk initialState ∧
    storeOk (runPass fetch keyOrder s).state ∧
    storeOk (download_and_hash_images passes s) ∧
    storeOk (create_hash_endpoint s k).2 :=
  ⟨fun _ => Or.inl rfl,
   runPass_storeOk fetch keyOrder s hs,
   images_storeOk passes s hs,
   hs⟩

theorem every_stored_value_empty_or_64_hex_witness :
    storeOk initialState ∧
    storeOk (runPass (fun _ => some helloBytes) keyOrder initialState).state ∧
    storeOk (download_and_hash_images [] initialState) ∧
    storeOk (create_hash_endpoint initialState Key.en).2 :=
  every_stored_value_empty_or_64_hex (fun _ => some helloBytes) [] initialState Key.en
    (fun _ => Or.inl rfl)

/-- Claim C10: once a key's stored value is non-empty it never becomes the
empty string again — the refresher only ever writes fresh 64-character
digests (never empty) and the GET handlers never write at all. -/
theorem sentinel_transition_one_way
    (passes : List (Key → Option (List Nat))) (s : AppState) (k k2 : Key)
    (h : s k ≠ "") :
    download_and_hash_images passes s k ≠ "" ∧ (create_hash_endpoint s k2).2 = s :=
  ⟨images_ne_empty k passes s h, rfl⟩

theorem sentinel_transition_one_way_witness :
    download_and_hash_images [fun _ => none]
        (setHash initialState Key.en (sha256hex helloBytes)) Key.en ≠ "" ∧
    (create_hash_endpoint (setHash initialState Key.en (sha256hex helloBytes)) Key.en).2
      = setHash initialState Key.en (sha256hex helloBytes) :=
  sentinel_transition_one_way [fun _ => none] _ Key.en Key.en (by decide)

end KoradiSvc
